import Mathlib

/-!
Verification of the hyperthink scaffolding controller
(`src/lib-litellm/hyperthink_litellm`) against its natural-language
specification.

The Python code is shallowly embedded: every definition below is
translated from a concrete function of the source tree.  Library
boundaries (the LiteLLM completer, `json.loads`, `random.sample`,
pydantic coercion, the MCP transport) are modelled as explicit
parameters or typed values, exactly at the point where the source
hands control to the library.
-/

set_option maxHeartbeats 1000000

namespace HyperThinkSpec

/-! ## Python string primitives

`str.replace` and `str.strip` are modelled on the character list of the
string with structural recursion (the source only ever replaces non-empty
literal patterns, and only truthiness of the stripped string is used). -/

/-- Leftmost, non-overlapping replacement of every occurrence of
`pattern` (non-empty) by `repl`; the fuel is the length of the scanned
list, which bounds the number of steps. -/
def pyReplaceAux (pattern repl : List Char) : Nat → List Char → List Char
  | 0, l => l
  | _ + 1, [] => []
  | fuel + 1, c :: rest =>
    if pattern ≠ [] ∧ List.isPrefixOf pattern (c :: rest) then
      repl ++ pyReplaceAux pattern repl fuel (List.drop (pattern.length - 1) rest)
    else
      c :: pyReplaceAux pattern repl fuel rest

/-- Python `s.replace(pattern, repl)` for non-empty `pattern`. -/
def pyReplace (s pattern repl : String) : String :=
  String.mk (pyReplaceAux pattern.data repl.data s.data.length s.data)

/-- Python `s.strip()`: remove leading and trailing whitespace. -/
def pyStrip (s : String) : String :=
  String.mk
    (((s.data.dropWhile Char.isWhitespace).reverse.dropWhile Char.isWhitespace).reverse)

/-- Boolean string-prefix test on the underlying character lists. -/
def strStartsWith (p s : String) : Bool :=
  List.isPrefixOf p.data s.data

/-! ## Notes memory (`state.py`, class `AutoDecayingState`) -/

/-- The runtime state of `AutoDecayingState`: a bounded list of notes. -/
structure AutoDecayingState where
  max_size : Nat
  notes : List String
  deriving Repr, DecidableEq

/-- Model of `new_notes[-max_size:]`, applied when the incoming batch alone exceeds
the capacity (`state.py` lines 27-28). -/
def truncateBatch (max_size : Nat) (new_notes : List String) : List String :=
  if new_notes.length > max_size then
    new_notes.drop (new_notes.length - max_size)
  else new_notes

/-- Model of `for i in evict_indices: del self.notes[i]` where `evict_indices` is the
random sample sorted in descending order (`state.py` lines 34-39). -/
def deleteIndices (notes : List String) (idxs : List Nat) : List String :=
  idxs.foldl (fun l i => l.eraseIdx i) notes

/-- Embedding of `AutoDecayingState.add_notes` (`state.py` lines 17-49).  The random draw
`random.sample(range(len(self.notes)), overflow)` is a library boundary; it
is passed in as `sample`, already sorted descending as the source sorts it.
`available` and `overflow` are Python ints, hence modelled in `Int`. -/
def AutoDecayingState.add_notes (s : AutoDecayingState) (new_notes : List String)
    (sample : List Nat) : AutoDecayingState :=
  let nn := truncateBatch s.max_size new_notes
  let available : Int := (s.max_size : Int) - s.notes.length
  let overflow : Int := (nn.length : Int) - available
  let kept := if overflow > 0 then deleteIndices s.notes sample else s.notes
  { s with notes := kept ++ nn }

/-- The intermediate value of `self.notes` right after the eviction step of
`add_notes` (`state.py` lines 33-39), before the batch is appended. -/
def keptNotes (s : AutoDecayingState) (new_notes : List String)
    (sample : List Nat) : List String :=
  if ((truncateBatch s.max_size new_notes).length : Int) -
      ((s.max_size : Int) - (s.notes.length : Int)) > 0
  then deleteIndices s.notes sample else s.notes

/-- Embedding of `AutoDecayingState.format` (`state.py` lines 58-62). -/
def AutoDecayingState.format (s : AutoDecayingState) : String :=
  if s.notes = [] then "(none)"
  else String.intercalate "\n"
    (s.notes.enum.map (fun p => toString (p.1 + 1) ++ ". " ++ p.2))

/-- Embedding of `AutoDecayingState.to_dict` / `from_dict` at the data level:
the dictionary carries exactly `max_size` and `notes` (`state.py` 68-78). -/
def AutoDecayingState.to_dict (s : AutoDecayingState) : Nat × List String :=
  (s.max_size, s.notes)

def AutoDecayingState.from_dict (d : Nat × List String) : AutoDecayingState :=
  { max_size := d.1, notes := d.2 }

/-! ## Reviewer output schema (`schemas.py`, class `ReviewerOutput`) -/

/-- The typed value produced by `ReviewerOutput(**data)` once pydantic has
accepted the decoded JSON object. -/
structure ReviewerOutput where
  review_result : Bool
  added_notes : List String
  output : String
  deriving Repr, DecidableEq

/-- The validation the source applies to a parsed `ReviewerOutput`
(`inference.py` lines 331-336): `review_result` is a bool by typing, and
only a rejecting verdict has its `added_notes` length checked. -/
def validateReviewerOutput (r : ReviewerOutput) : Except String ReviewerOutput :=
  if r.review_result then Except.ok r
  else if 2 ≤ r.added_notes.length ∧ r.added_notes.length ≤ 8 then Except.ok r
  else Except.error "added_notes must contain 2-8 items when review_result is False"

/-! ## Reviewer prompt formatting (`helpers.py`) -/

/-- Embedding of `_format_reviewer_prompt` (`helpers.py` lines 1-3): two sequential
`str.replace` calls. -/
def _format_reviewer_prompt (template notes review_input : String) : String :=
  pyReplace (pyReplace template "{notes}" notes) "{review_input}" review_input

/-! ## Temperature annealing (`inference.py`, `_anneal_temp_a`) -/

/-- Embedding of `_anneal_temp_a` (`inference.py` lines 52-61).  Python floats are
modelled as rationals.  `anneal_steps` is the stored
`self.temp_a_anneal_steps` (`None` falls back to 10 inside the method). -/
def _anneal_temp_a (temp_a_start temp_a_end : ℚ) (anneal_steps : Option Nat)
    (step : Nat) : ℚ :=
  let T : Nat := anneal_steps.getD 10
  let t : Nat := min step T
  temp_a_end + (temp_a_start - temp_a_end) * (1 - (t : ℚ) / (T : ℚ))

/-! ## Instance attributes (`hyperthink.py` `__init__`, dynamic lookup model)

Python resolves `self.x` against the attributes actually assigned on the
instance; a class-body annotation without a value (as in `_InferenceMixin`)
creates no attribute.  The lists below record, verbatim from the source,
which attribute names each piece of code assigns or reads. -/

/-- Every attribute name assigned on `self` by `HyperThink.__init__`
(`hyperthink.py` lines 106-133). -/
def initAttributes : List String :=
  ["model_a", "model_b", "max_state_size", "max_iterations",
   "temp_a_start", "temp_a_end", "temp_a_anneal_steps", "temp_b",
   "top_p_a", "top_p_b", "top_k_a", "top_k_b",
   "starter_prompt", "reviewer_prompt",
   "reasoning_effort_a", "reasoning_effort_b", "logging_enabled",
   "state", "iteration_count",
   "_total_prompt_tokens", "_total_completion_tokens", "_total_cost_usd"]

/-- Attribute names the tool loop reads on `self`
(`inference.py` lines 123, 161, 167). -/
def toolLoopAttributeReads : List String :=
  ["tool_registry", "tools", "max_tool_iterations"]

/-- Attribute names `save_checkpoint` reads on `self` for the `config`
block of the snapshot (`checkpoint.py` lines 31-44). -/
def saveCheckpointConfigReads : List String :=
  ["model_a", "model_b", "max_state_size", "max_iterations",
   "temp_a", "temp_b", "top_p_a", "top_p_b", "top_k_a", "top_k_b",
   "reasoning_effort_a", "reasoning_effort_b"]

/-! ## Tool dispatch (`inference.py`, `_dispatch_tool_call`) -/

/-- An executor either returns a result string or raises, modelled as
`Except` with the exception message. -/
abbrev Executor := String → Except String String

/-- Embedding of `_dispatch_tool_call` (`inference.py` lines 118-130).  The registry is
the `self.tool_registry` dict; `name` and `raw_args` come from the tool
call.  Every failure is converted to a returned string, never re-raised. -/
def _dispatch_tool_call (tool_registry : List (String × Executor))
    (name raw_args : String) : String :=
  match tool_registry.lookup name with
  | none => "Error: unknown tool \x27" ++ name ++ "\x27."
  | some executor =>
    match executor raw_args with
    | Except.ok r => r
    | Except.error exc => "Error executing tool \x27" ++ name ++ "\x27: " ++ exc

/-! ## MCP synchronous tool call (`tools/mcp.py`, `_call_tool_sync`) -/

/-- Outcome of the remote call `future.result(timeout=60)`: a normal
result (its extracted text parts), a timeout, or any other exception. -/
inductive McpOutcome where
  | ok (parts : List String)
  | timeout
  | raised (msg : String)
  deriving Repr, DecidableEq

/-- Embedding of `MCPClient._call_tool_sync` (`tools/mcp.py` lines 172-194).
`connected` models `self._session is not None and self._loop is not None`;
`parseErr` models `json.loads(arguments)` raising with the given message;
`outcome` models the remote future.  The source joins `.text` parts of the
result content, falling back to `str(result)` (modelled as `fallback`). -/
def _call_tool_sync (connected : Bool) (parseErr : Option String)
    (name : String) (outcome : McpOutcome) (fallback : String) : String :=
  if connected = false then "Error: MCP session is not connected."
  else
    match parseErr with
    | some exc => "Error: Could not parse tool arguments as JSON: " ++ exc
    | none =>
      match outcome with
      | McpOutcome.timeout =>
          "Error: Tool call \x27" ++ name ++ "\x27 timed out after 60 seconds."
      | McpOutcome.raised exc =>
          "Error calling tool \x27" ++ name ++ "\x27: " ++ exc
      | McpOutcome.ok parts =>
          if parts = [] then fallback else String.intercalate "\n" parts

/-! ## Tool loop (`inference.py`, `_run_tool_loop`)

The LiteLLM completer is a library boundary: it is modelled as an oracle
mapping the index of the completer call to the response
`choices[0].message`.  The trace records, for every completer call issued,
whether tools were offered and whether `response_format` was applied. -/

/-- One entry of `message.tool_calls`. -/
structure ToolCall where
  id : String
  name : String
  arguments : Option String
  deriving Repr, DecidableEq

/-- The `choices[0].message` part of a completion response. -/
structure CompleterResp where
  content : Option String
  tool_calls : List ToolCall
  deriving Repr, DecidableEq

/-- Observable shape of one completer call: whether `tools` was passed and
whether `response_format` was passed. -/
structure CallRec where
  toolsOffered : Bool
  fmtApplied : Bool
  deriving Repr, DecidableEq

/-- A chat message as the loop builds them. -/
inductive Msg where
  | system (content : String)
  | user (content : String)
  | assistant (content : String)
  | assistantToolCalls (content : Option String) (tcs : List ToolCall)
  | tool (tool_call_id : String) (content : String)
  deriving Repr

/-- Body of the `for iteration in range(self.max_tool_iterations + 1)` loop
(`inference.py` lines 167-242).  `rem + 1` is the number of iterations still
permitted, so `rem = 0` is exactly `is_last_allowed`.  Returns the final
response and the trace of completer calls issued. -/
def _run_tool_loop_aux (oracle : Nat → CompleterResp)
    (tool_registry : List (String × Executor)) (hasTools respFmt : Bool) :
    List Msg → Nat → Nat → CompleterResp × List CallRec
  | _, _, 0 => (⟨none, []⟩, [])
  | msgs, callIdx, rem + 1 =>
    let current_tools : Bool := if rem = 0 then false else hasTools
    let current_fmt : Bool := if current_tools then false else respFmt
    let response := oracle callIdx
    if response.tool_calls = [] then
      if current_fmt = false ∧ respFmt = true then
        -- response_format was deferred: keep the text reply as an
        -- assistant turn when non-blank, then one final structured call.
        let ac := response.content.getD ""
        let _msgs2 := if pyStrip ac = "" then msgs else msgs ++ [Msg.assistant ac]
        (oracle (callIdx + 1), [⟨current_tools, current_fmt⟩, ⟨false, true⟩])
      else (response, [⟨current_tools, current_fmt⟩])
    else if rem = 0 then
      -- guard: tools were not offered, yet tool calls came back
      (response, [⟨current_tools, current_fmt⟩])
    else
      let toolMsgs := response.tool_calls.map (fun tc =>
        Msg.tool tc.id
          (_dispatch_tool_call tool_registry tc.name (tc.arguments.getD "\x7b\x7d")))
      let msgs2 := msgs ++ [Msg.assistantToolCalls response.content response.tool_calls]
        ++ toolMsgs
      let r := _run_tool_loop_aux oracle tool_registry hasTools respFmt msgs2 (callIdx + 1) rem
      (r.1, ⟨current_tools, current_fmt⟩ :: r.2)

/-- Embedding of `_run_tool_loop` (`inference.py` lines 132-242).  `hasTools` models
`self.tools if self.tools else None` being non-`None`; `respFmt` models a
non-`None` `response_format`. -/
def _run_tool_loop (max_tool_iterations : Nat) (hasTools respFmt : Bool)
    (oracle : Nat → CompleterResp) (tool_registry : List (String × Executor))
    (messages : List Msg) (callIdx : Nat) : CompleterResp × List CallRec :=
  _run_tool_loop_aux oracle tool_registry hasTools respFmt messages callIdx
    (max_tool_iterations + 1)

/-! ## Controller (`hyperthink.py`, `HyperThink.query`) -/

/-- Model of `max_iterations is not None and iteration_count >= max_iterations`
(`hyperthink.py` lines 204-207). -/
def capReached (max_iterations : Option Nat) (iteration_count : Nat) : Bool :=
  match max_iterations with
  | some n => decide (n ≤ iteration_count)
  | none => false

/-- Construction-time configuration plus the library boundaries a `query`
run consumes: the completer oracle (indexed by completer-call count), the
JSON-decode-plus-pydantic stage `parse` applied to reviewer content, and
the `random.sample` draws consumed by `add_notes` (indexed by review step). -/
structure QueryEnv where
  max_iterations : Option Nat
  max_tool_iterations : Nat
  max_state_size : Nat
  hasTools : Bool
  tool_registry : List (String × Executor)
  oracle : Nat → CompleterResp
  parse : String → Except String ReviewerOutput
  samples : Nat → List Nat
  starter_prompt : String
  reviewer_prompt : String
  user_messages : List Msg

/-- The reviewer alternation loop of `query` (`hyperthink.py` lines
203-251), including `_run_reviewer` (`inference.py` lines 272-338)
inlined: prompt formatting, tool loop with `response_format=json_object`,
the non-empty-content assertion, parsing and validation.  `gas` is pure
fuel; the termination condition of the source is the explicit `capReached`
check or an accepting verdict.  Returns
`(answer, iteration_count, completer_calls)`. -/
def queryLoop (env : QueryEnv) :
    Nat → String → Nat → Nat → Nat → List String → Nat →
    Except String (String × Nat × Nat)
  | 0, current, ic, _, _, _, ci =>
      if capReached env.max_iterations ic then Except.ok (current, ic, ci)
      else Except.error "fuel exhausted"
  | gas + 1, current, ic, reviewStep, aCount, notes, ci =>
      if capReached env.max_iterations ic then Except.ok (current, ic, ci)
      else
        let label := if reviewStep % 2 = 0 then "B" else "A"
        let sysPrompt := _format_reviewer_prompt env.reviewer_prompt
          (AutoDecayingState.format ⟨env.max_state_size, notes⟩) current
        let msgs := Msg.system sysPrompt :: env.user_messages
        let rt := _run_tool_loop env.max_tool_iterations env.hasTools true
          env.oracle env.tool_registry msgs ci
        let ci2 := ci + rt.2.length
        match rt.1.content with
        | none => Except.error "Reviewer model returned empty content"
        | some c =>
          if pyStrip c = "" then Except.error "Reviewer model returned empty content"
          else
            match env.parse c with
            | Except.error exc =>
                Except.error ("Failed to parse reviewer output as ReviewerOutput: " ++ exc)
            | Except.ok raw =>
              match validateReviewerOutput raw with
              | Except.error exc => Except.error exc
              | Except.ok result =>
                let ic2 := ic + 1
                let aCount2 := if label = "A" then aCount + 1 else aCount
                if result.review_result then Except.ok (result.output, ic2, ci2)
                else
                  let st := AutoDecayingState.add_notes
                    ⟨env.max_state_size, notes⟩ result.added_notes
                    (env.samples reviewStep)
                  queryLoop env gas result.output ic2 (reviewStep + 1) aCount2
                    st.notes ci2

/-- Embedding of `HyperThink.query` (`hyperthink.py` lines 157-251): fresh state, the
starter step (`_run_starter`, `inference.py` lines 248-266) with its
non-empty assertion, then the reviewer loop. -/
def query (env : QueryEnv) (fuel : Nat) : Except String (String × Nat × Nat) :=
  let msgs := Msg.system env.starter_prompt :: env.user_messages
  let rt := _run_tool_loop env.max_tool_iterations env.hasTools false
    env.oracle env.tool_registry msgs 0
  match rt.1.content with
  | none => Except.error "Starter model returned empty content"
  | some c =>
    if pyStrip c = "" then Except.error "Starter model returned empty content"
    else queryLoop env fuel c 1 0 0 [] rt.2.length

/-! ## Auxiliary observations on traces and concrete stub runs -/

/-- The last completer call of a trace offered no tools (vacuously true for
an empty trace). -/
def noToolsLast (tr : List CallRec) : Bool :=
  match tr.getLast? with
  | some r => !r.toolsOffered
  | none => true

/-- Stub environment: starter answer `"start"`, then every reviewer call
returns content `"rej"`, which decodes to a rejecting verdict with two
notes and output `"ro"`.  `max_iterations = 3`, no tools. -/
def envC3 : QueryEnv where
  max_iterations := some 3
  max_tool_iterations := 8
  max_state_size := 17
  hasTools := false
  tool_registry := []
  oracle := fun k => if k = 0 then ⟨some "start", []⟩ else ⟨some "rej", []⟩
  parse := fun c =>
    if c = "rej" then Except.ok ⟨false, ["n1", "n2"], "ro"⟩
    else Except.error "bad"
  samples := fun _ => []
  starter_prompt := "sp"
  reviewer_prompt := "{notes} {review_input}"
  user_messages := [Msg.user "q"]

/-- Stub environment: starter answer `"hi"`, then the first reviewer call
returns content `"acc"`, which decodes to an accepting verdict whose
`output` field is the empty string. -/
def envC5 : QueryEnv where
  max_iterations := some 5
  max_tool_iterations := 8
  max_state_size := 17
  hasTools := false
  tool_registry := []
  oracle := fun k => if k = 0 then ⟨some "hi", []⟩ else ⟨some "acc", []⟩
  parse := fun c =>
    if c = "acc" then Except.ok ⟨true, [], ""⟩
    else Except.error "bad"
  samples := fun _ => []
  starter_prompt := "sp"
  reviewer_prompt := "{notes} {review_input}"
  user_messages := [Msg.user "q"]

/-! # Theorems -/

/-- C10: reviewer system-prompt construction is sequential textual
replacement: first every occurrence of the placeholder for notes is
substituted, then every occurrence of the review-input placeholder — also
occurrences that the substituted notes value introduced.  The second
conjunct exhibits a notes value containing the literal review-input
placeholder: the current answer `"ANS"` then also appears inside the
notes region of the resulting system prompt (`"N:xANSy ..."`). -/
theorem format_reviewer_prompt_sequential_substitution :
    (∀ template notes review_input : String,
        _format_reviewer_prompt template notes review_input =
          pyReplace (pyReplace template "{notes}" notes) "{review_input}"
            review_input) ∧
    _format_reviewer_prompt "N:{notes} R:{review_input}" "x{review_input}y"
        "ANS" = "N:xANSy R:ANS" ∧
    _format_reviewer_prompt "N:{notes} R:{review_input}" "plain" "ANS" =
      "N:plain R:ANS" :=
  ⟨fun _ _ _ => rfl, by decide, by decide⟩

/-- C2: the fields `tools`, `tool_registry` and `max_tool_iterations` that
`_run_tool_loop` reads on `self` are NOT among the attributes
`HyperThink.__init__` assigns — the class-body annotations of
`_InferenceMixin` create no attribute, so every constructed instance raises
`AttributeError` inside the tool loop instead of carrying the claimed
configuration. -/
theorem init_missing_tool_loop_attributes :
    "tools" ∈ toolLoopAttributeReads ∧
    "tool_registry" ∈ toolLoopAttributeReads ∧
    "max_tool_iterations" ∈ toolLoopAttributeReads ∧
    "tools" ∉ initAttributes ∧
    "tool_registry" ∉ initAttributes ∧
    "max_tool_iterations" ∉ initAttributes := by decide

/-- C9: `save_checkpoint` reads the attribute `temp_a` for the `config`
block of the snapshot, but `__init__` never assigns `temp_a` (it assigns
`temp_a_start` and `temp_a_end`), so `save_checkpoint` raises
`AttributeError` on every instance instead of succeeding. -/
theorem save_checkpoint_reads_unassigned_attribute :
    "temp_a" ∈ saveCheckpointConfigReads ∧ "temp_a" ∉ initAttributes := by
  decide

/-- C4: reviewer-verdict validation accepts a verdict that violates the
claimed invariants: for the decoded JSON object with `review_result = true`,
`added_notes = ["x"]` and `output = ""`, parsing and validation succeed,
yet `added_notes` is non-empty despite acceptance and `output` is empty. -/
theorem validate_accepts_invariant_violating_verdict :
    validateReviewerOutput ⟨true, ["x"], ""⟩ = Except.ok ⟨true, ["x"], ""⟩ ∧
    (ReviewerOutput.mk true ["x"] "").added_notes ≠ [] ∧
    (ReviewerOutput.mk true ["x"] "").output = "" :=
  ⟨rfl, by decide, rfl⟩

/-- C8 counterexample: an executor that raises with message `"boom"` makes
`_dispatch_tool_call` return `"Error executing tool ...: boom"`, a string
that does NOT begin with the exact prefix `"Error: "` the claim states. -/
theorem dispatch_executor_exception_lacks_error_colon_prefix :
    _dispatch_tool_call [("f", fun _ => Except.error "boom")] "f" "\x7b\x7d" =
      "Error executing tool \x27f\x27: boom" ∧
    strStartsWith "Error: "
      (_dispatch_tool_call [("f", fun _ => Except.error "boom")] "f" "\x7b\x7d")
      = false := by
  exact ⟨rfl, by decide⟩

/-- C8 amended: tool-level failure never raises out of the loop — every
failure is converted into a returned message string — and the message of
each failure mode is exactly as below.  Unknown tools, bad JSON arguments,
a closed MCP session and an MCP timeout produce messages beginning with
`"Error: "`; an executor that raises and a remote MCP call that raises
produce messages beginning with `"Error executing tool"` /
`"Error calling tool"` instead. -/
theorem tool_failures_become_error_messages :
    (∀ (reg : List (String × Executor)) (name args : String),
        reg.lookup name = none →
          _dispatch_tool_call reg name args =
            "Error: unknown tool \x27" ++ name ++ "\x27.") ∧
    (∀ (reg : List (String × Executor)) (name args : String) (ex : Executor)
        (msg : String),
        reg.lookup name = some ex → ex args = Except.error msg →
          _dispatch_tool_call reg name args =
            "Error executing tool \x27" ++ name ++ "\x27: " ++ msg) ∧
    (∀ (reg : List (String × Executor)) (name args : String) (ex : Executor)
        (r : String),
        reg.lookup name = some ex → ex args = Except.ok r →
          _dispatch_tool_call reg name args = r) ∧
    (∀ (parseErr : Option String) (name : String) (outcome : McpOutcome)
        (fallback : String),
        _call_tool_sync false parseErr name outcome fallback =
          "Error: MCP session is not connected.") ∧
    (∀ (name exc : String) (outcome : McpOutcome) (fallback : String),
        _call_tool_sync true (some exc) name outcome fallback =
          "Error: Could not parse tool arguments as JSON: " ++ exc) ∧
    (∀ (name fallback : String),
        _call_tool_sync true none name McpOutcome.timeout fallback =
          "Error: Tool call \x27" ++ name ++ "\x27 timed out after 60 seconds.") ∧
    (∀ (name exc fallback : String),
        _call_tool_sync true none name (McpOutcome.raised exc) fallback =
          "Error calling tool \x27" ++ name ++ "\x27: " ++ exc) := by
  refine ⟨?_, ?_, ?_, ?_, ?_, ?_, ?_⟩
  · intro reg name args h
    simp [_dispatch_tool_call, h]
  · intro reg name args ex msg h hx
    simp [_dispatch_tool_call, h, hx]
  · intro reg name args ex r h hx
    simp [_dispatch_tool_call, h, hx]
  · intro parseErr name outcome fallback
    simp [_call_tool_sync]
  · intro name exc outcome fallback
    simp [_call_tool_sync]
  · intro name fallback
    simp [_call_tool_sync]
  · intro name exc fallback
    simp [_call_tool_sync]

/-- Witness for the amended C8 theorem at concrete inputs. -/
theorem tool_failures_become_error_messages_witness :
    _dispatch_tool_call [] "g" "" = "Error: unknown tool \x27g\x27." ∧
    _call_tool_sync true none "g" McpOutcome.timeout "" =
      "Error: Tool call \x27g\x27 timed out after 60 seconds." ∧
    _dispatch_tool_call [("g", fun _ => Except.error "boom")] "g" "" =
      "Error executing tool \x27g\x27: boom" :=
  ⟨tool_failures_become_error_messages.1 [] "g" "" rfl,
   tool_failures_become_error_messages.2.2.2.2.2.1 "g" "",
   tool_failures_become_error_messages.2.1 [("g", fun _ => Except.error "boom")]
     "g" "" (fun _ => Except.error "boom") "boom" rfl rfl⟩

/-- C6 counterexample: with tools configured, no `response_format`, and a
completer whose first reply carries no tool calls, the tool loop issues
exactly one completer call — and that (last) call DOES offer tools,
contradicting the claim that the last issued call offers no tools. -/
theorem tool_loop_last_call_offers_tools :
    (_run_tool_loop 8 true false (fun _ => ⟨some "hi", []⟩) [] [] 0).2 =
      [⟨true, false⟩] ∧
    noToolsLast (_run_tool_loop 8 true false (fun _ => ⟨some "hi", []⟩) [] [] 0).2
      = false := by
  exact ⟨rfl, rfl⟩

theorem noToolsLast_cons_cons (a b : CallRec) (l : List CallRec) :
    noToolsLast (a :: b :: l) = noToolsLast (b :: l) := by
  simp [noToolsLast, List.getLast?_cons_cons]

theorem tool_loop_aux_bound (oracle : Nat → CompleterResp)
    (reg : List (String × Executor)) (hasTools respFmt : Bool) :
    ∀ (rem : Nat) (msgs : List Msg) (ci : Nat), 1 ≤ rem →
      1 ≤ (_run_tool_loop_aux oracle reg hasTools respFmt msgs ci rem).2.length ∧
      (_run_tool_loop_aux oracle reg hasTools respFmt msgs ci rem).2.length ≤ rem ∧
      ((respFmt = true ∨ hasTools = false) →
        noToolsLast
          (_run_tool_loop_aux oracle reg hasTools respFmt msgs ci rem).2 = true) := by
  intro rem
  induction rem with
  | zero => intro msgs ci h; omega
  | succ r ih =>
    intro msgs ci _
    rcases Nat.eq_zero_or_pos r with hr | hr
    · -- the last allowed iteration: tools are dropped
      subst hr
      by_cases htc : (oracle ci).tool_calls = [] <;>
        cases respFmt <;> simp [_run_tool_loop_aux, htc, noToolsLast]
    · have hrne : ¬ (r = 0) := by omega
      by_cases htc : (oracle ci).tool_calls = []
      · -- no tool calls: return now, possibly after one deferred
        -- structured call
        cases hasTools <;> cases respFmt <;>
          (simp [_run_tool_loop_aux, htc, hrne, noToolsLast]; try omega)
      · -- tool calls issued: dispatch them and loop
        simp only [_run_tool_loop_aux, htc, hrne, if_neg, ite_false]
        set M := msgs ++
          [Msg.assistantToolCalls (oracle ci).content (oracle ci).tool_calls] ++
          List.map (fun tc => Msg.tool tc.id
            (_dispatch_tool_call reg tc.name (tc.arguments.getD "\x7b\x7d")))
            (oracle ci).tool_calls with hM
        obtain ⟨h1, h2, h3⟩ := ih M (ci + 1) hr
        refine ⟨by simp, ?_, ?_⟩
        · simp only [List.length_cons]
          omega
        · intro hor
          have h3' := h3 hor
          rcases hL : (_run_tool_loop_aux oracle reg hasTools respFmt M
            (ci + 1) r).2 with _ | ⟨b, l⟩
          · rw [hL] at h1; simp at h1
          · rw [noToolsLast_cons_cons]
            rw [hL] at h3'
            exact h3'

/-- C6 amended: a single invocation of the tool loop issues at least one
and at most `max_tool_iterations + 1` completer calls; the LAST issued
call offers no tools whenever a `response_format` is requested or no tools
are configured.  (As `tool_loop_last_call_offers_tools` shows, with tools
configured and no `response_format` the loop returns the first completion
that carries no tool calls, and that call may have offered tools.) -/
theorem tool_loop_call_bound (max_tool_iterations : Nat)
    (hasTools respFmt : Bool) (oracle : Nat → CompleterResp)
    (reg : List (String × Executor)) (msgs : List Msg) (ci : Nat) :
    1 ≤ (_run_tool_loop max_tool_iterations hasTools respFmt oracle reg
          msgs ci).2.length ∧
    (_run_tool_loop max_tool_iterations hasTools respFmt oracle reg
          msgs ci).2.length ≤ max_tool_iterations + 1 ∧
    ((respFmt = true ∨ hasTools = false) →
      noToolsLast (_run_tool_loop max_tool_iterations hasTools respFmt oracle
        reg msgs ci).2 = true) :=
  tool_loop_aux_bound oracle reg hasTools respFmt (max_tool_iterations + 1)
    msgs ci (by omega)

/-- With no tools configured, one outer invocation of the tool loop is a
single completer call whenever that call returns no tool calls. -/
theorem tool_loop_single_call (max_tool_iterations : Nat) (respFmt : Bool)
    (oracle : Nat → CompleterResp) (reg : List (String × Executor))
    (msgs : List Msg) (ci : Nat)
    (h : (oracle ci).tool_calls = []) :
    _run_tool_loop max_tool_iterations false respFmt oracle reg msgs ci =
      (oracle ci, [⟨false, respFmt⟩]) := by
  unfold _run_tool_loop
  cases respFmt <;> simp [_run_tool_loop_aux, h]

/-- The reviewer loop under an always-rejecting stub: starting from
`iteration_count = ic` with the completer-call counter equal to `ic`, it
runs until the cap `n` and returns the latest output with
`iteration_count = n` after exactly `n` completer calls in total. -/
theorem queryLoop_rejecting (env : QueryEnv) (n : Nat)
    (nsf : Nat → List String) (outf : Nat → String)
    (hmi : env.max_iterations = some n)
    (htools : env.hasTools = false)
    (hrev : ∀ k, 1 ≤ k → (env.oracle k).tool_calls = [] ∧
      ∃ c, (env.oracle k).content = some c ∧ pyStrip c ≠ "" ∧
        env.parse c = Except.ok ⟨false, nsf k, outf k⟩)
    (hns : ∀ k, 2 ≤ (nsf k).length ∧ (nsf k).length ≤ 8) :
    ∀ (gas : Nat) (current : String) (ic rs ac : Nat) (notes : List String),
      1 ≤ ic → ic ≤ n → n ≤ ic + gas →
      queryLoop env gas current ic rs ac notes ic =
        Except.ok ((if ic = n then current else outf (n - 1)), n, n) := by
  intro gas
  induction gas with
  | zero =>
    intro current ic rs ac notes h1 h2 h3
    have hic : ic = n := by omega
    subst hic
    simp [queryLoop, capReached, hmi]
  | succ g ihg =>
    intro current ic rs ac notes h1 h2 h3
    by_cases hcap : n ≤ ic
    · have hic : ic = n := by omega
      subst hic
      simp [queryLoop, capReached, hmi, hcap]
    · obtain ⟨htc, c, hc, hcs, hparse⟩ := hrev ic h1
      have hlt : ic < n := by omega
      have hloop : ∀ msgs, _run_tool_loop env.max_tool_iterations false true
          env.oracle env.tool_registry msgs ic =
            (env.oracle ic, [⟨false, true⟩]) :=
        fun msgs => tool_loop_single_call _ _ _ _ msgs _ htc
      have hvr : validateReviewerOutput ⟨false, nsf ic, outf ic⟩ =
          Except.ok ⟨false, nsf ic, outf ic⟩ := by
        simp [validateReviewerOutput, (hns ic).1, (hns ic).2]
      simp only [queryLoop, capReached, hmi, htools, hloop, hc, hparse, hvr]
      rw [if_neg (by simp [hcap])]
      rw [if_neg hcs]
      simp only [List.length_cons, List.length_nil]
      rw [if_neg (by simp)]
      have hgoal := ihg (outf ic) (ic + 1) (rs + 1)
        (if (if rs % 2 = 0 then "B" else "A") = "A" then ac + 1 else ac)
        (({ max_size := env.max_state_size, notes := notes } :
            AutoDecayingState).add_notes (nsf ic) (env.samples rs)).notes
        (by omega) (by omega) (by omega)
      simp only [Nat.zero_add]
      rw [hgoal]
      have hne : ¬ (ic = n) := by omega
      rw [if_neg hne]
      by_cases hn : ic + 1 = n
      · rw [if_pos hn]
        have he : n - 1 = ic := by omega
        rw [he]
      · rw [if_neg hn]

/-- C3: with `max_iterations = n ≥ 1`, no tools configured, and a completer
stub whose first call yields a non-blank starter answer and whose every
later call yields a rejecting verdict with 2-8 notes and no tool calls,
`query` returns normally after exactly `n` completer calls (third
component), with `iteration_count = n` (second component), and the value
returned is the output `outf (n - 1)` of the most recent reviewer — for `n = 1`
no reviewer ever runs and the starter answer is returned instead. -/
theorem query_iteration_cap (env : QueryEnv) (n : Nat) (s : String)
    (nsf : Nat → List String) (outf : Nat → String) (fuel : Nat)
    (hmi : env.max_iterations = some n) (hn : 1 ≤ n) (hfuel : n ≤ 1 + fuel)
    (htools : env.hasTools = false)
    (h0c : (env.oracle 0).content = some s)
    (h0t : (env.oracle 0).tool_calls = [])
    (h0s : pyStrip s ≠ "")
    (hrev : ∀ k, 1 ≤ k → (env.oracle k).tool_calls = [] ∧
      ∃ c, (env.oracle k).content = some c ∧ pyStrip c ≠ "" ∧
        env.parse c = Except.ok ⟨false, nsf k, outf k⟩)
    (hns : ∀ k, 2 ≤ (nsf k).length ∧ (nsf k).length ≤ 8) :
    query env fuel = Except.ok ((if n = 1 then s else outf (n - 1)), n, n) := by
  have hloop := tool_loop_single_call env.max_tool_iterations false env.oracle
    env.tool_registry (Msg.system env.starter_prompt :: env.user_messages) 0 h0t
  unfold query
  rw [htools]
  simp only [hloop, h0c]
  rw [if_neg h0s]
  simp only [List.length_cons, List.length_nil, Nat.zero_add]
  have hrun := queryLoop_rejecting env n nsf outf hmi htools hrev hns fuel s
    1 0 0 [] (by omega) (by omega) (by omega)
  rw [hrun]
  by_cases h1 : n = 1
  · simp [h1]
  · rw [if_neg (by omega : ¬ (1 = n)), if_neg h1]

/-- Witness for `query_iteration_cap`: the stub environment `envC3` with
`max_iterations = 3`: three completer calls, `iteration_count = 3`, and the
output of the last rejecting reviewer is returned. -/
theorem query_iteration_cap_witness :
    query envC3 3 = Except.ok ("ro", 3, 3) := by
  have h := query_iteration_cap envC3 3 "start" (fun _ => ["n1", "n2"])
    (fun _ => "ro") 3 rfl (by omega) (by omega) rfl rfl rfl (by decide)
    (by
      intro k hk
      have hkne : ¬ (k = 0) := by omega
      refine ⟨?_, "rej", ?_, by decide, ?_⟩ <;> simp [envC3, hkne])
    (by intro k; refine ⟨by simp, by simp⟩)
  simpa using h

/-- C5: `query` can return the empty string — with the stub environment
`envC5`, whose first reviewer verdict is accepting with an empty `output`
field, `query` returns normally with value `""` (and
`iteration_count = 2` after 2 completer calls), because the source never
validates non-emptiness of the parsed `output`. -/
theorem query_returns_empty_string :
    query envC5 5 = Except.ok ("", 2, 2) := by rfl

/-- C7: with `0 ≤ temp_a_end ≤ temp_a_start` and a positive anneal step
count `T = temp_a_anneal_steps.getD 10`, the annealed temperature equals
`temp_a_start` at step 0, equals `temp_a_end` for every step `≥ T`, is
non-increasing in the step, and always lies in
`[temp_a_end, temp_a_start]`. -/
theorem anneal_schedule_spec (temp_a_start temp_a_end : ℚ)
    (anneal_steps : Option Nat)
    (_h0 : 0 ≤ temp_a_end) (h1 : temp_a_end ≤ temp_a_start)
    (hT : 0 < anneal_steps.getD 10) :
    _anneal_temp_a temp_a_start temp_a_end anneal_steps 0 = temp_a_start ∧
    (∀ k, anneal_steps.getD 10 ≤ k →
      _anneal_temp_a temp_a_start temp_a_end anneal_steps k = temp_a_end) ∧
    (∀ j k, j ≤ k →
      _anneal_temp_a temp_a_start temp_a_end anneal_steps k ≤
        _anneal_temp_a temp_a_start temp_a_end anneal_steps j) ∧
    (∀ k, temp_a_end ≤ _anneal_temp_a temp_a_start temp_a_end anneal_steps k ∧
      _anneal_temp_a temp_a_start temp_a_end anneal_steps k ≤ temp_a_start) := by
  have hTQ : (0 : ℚ) < ((anneal_steps.getD 10 : Nat) : ℚ) := by
    exact_mod_cast hT
  have key : ∀ k, _anneal_temp_a temp_a_start temp_a_end anneal_steps k =
      temp_a_end + (temp_a_start - temp_a_end) *
        (1 - ((min k (anneal_steps.getD 10) : Nat) : ℚ) /
          ((anneal_steps.getD 10 : Nat) : ℚ)) := fun _ => rfl
  have hfrac : ∀ k, 0 ≤ ((min k (anneal_steps.getD 10) : Nat) : ℚ) /
      ((anneal_steps.getD 10 : Nat) : ℚ) ∧
      ((min k (anneal_steps.getD 10) : Nat) : ℚ) /
        ((anneal_steps.getD 10 : Nat) : ℚ) ≤ 1 := by
    intro k
    constructor
    · exact div_nonneg (Nat.cast_nonneg _) (le_of_lt hTQ)
    · rw [div_le_one hTQ]
      exact_mod_cast Nat.min_le_right k _
  have hse : (0 : ℚ) ≤ temp_a_start - temp_a_end := sub_nonneg.mpr h1
  refine ⟨?_, ?_, ?_, ?_⟩
  · rw [key 0]
    simp [Nat.zero_min]
  · intro k hk
    rw [key k]
    rw [min_eq_right hk, div_self (ne_of_gt hTQ)]
    ring
  · intro j k hjk
    rw [key j, key k]
    have hmono : ((min j (anneal_steps.getD 10) : Nat) : ℚ) /
        ((anneal_steps.getD 10 : Nat) : ℚ) ≤
        ((min k (anneal_steps.getD 10) : Nat) : ℚ) /
          ((anneal_steps.getD 10 : Nat) : ℚ) := by
      rw [div_le_div_iff_of_pos_right hTQ]
      exact_mod_cast min_le_min hjk (le_refl _)
    nlinarith
  · intro k
    rw [key k]
    obtain ⟨hx0, hx1⟩ := hfrac k
    constructor
    · nlinarith
    · nlinarith

theorem truncateBatch_length (m : Nat) (b : List String) :
    (truncateBatch m b).length = min b.length m := by
  unfold truncateBatch
  split
  · rw [List.length_drop]; omega
  · omega

theorem truncateBatch_eq_drop (m : Nat) (b : List String) :
    truncateBatch m b = b.drop (b.length - m) := by
  unfold truncateBatch
  split
  · rfl
  · have h : b.length - m = 0 := by omega
    rw [h, List.drop_zero]

theorem deleteIndices_sublist_length :
    ∀ (idxs : List Nat) (notes : List String),
      List.Sorted (· > ·) idxs → (∀ i ∈ idxs, i < notes.length) →
      List.Sublist (deleteIndices notes idxs) notes ∧
      (deleteIndices notes idxs).length = notes.length - idxs.length := by
  intro idxs
  induction idxs with
  | nil =>
    intro notes _ _
    exact ⟨List.Sublist.refl _, by simp [deleteIndices]⟩
  | cons i rest ih =>
    intro notes hsort hbound
    rw [List.sorted_cons] at hsort
    obtain ⟨hgt, hsort'⟩ := hsort
    have hi : i < notes.length := hbound i (List.mem_cons_self i rest)
    have hlen : (notes.eraseIdx i).length = notes.length - 1 := by
      rw [List.length_eraseIdx]; simp [hi]
    have hbound' : ∀ j ∈ rest, j < (notes.eraseIdx i).length := by
      intro j hj
      have hji := hgt j hj
      rw [hlen]
      omega
    have step : deleteIndices notes (i :: rest) =
        deleteIndices (notes.eraseIdx i) rest := rfl
    obtain ⟨hsub, hlen2⟩ := ih (notes.eraseIdx i) hsort' hbound'
    refine ⟨?_, ?_⟩
    · rw [step]; exact hsub.trans (List.eraseIdx_sublist notes i)
    · rw [step, hlen2, hlen, List.length_cons]
      omega

/-- C1: under `len(current) ≤ max_size`, `add_notes` truncates the batch to
its trailing `max_size` entries, evicts — for any admissible random draw of
distinct positions — exactly
`max(0, min(len(b), max_size) + len(current) − max_size)` old entries, keeps
the surviving old entries in their relative order, appends the truncated
batch at the tail, and leaves at most `max_size` notes.  `sample` is the
draw of `random.sample`, sorted descending as the source sorts it. -/
theorem add_notes_spec (s : AutoDecayingState) (new_notes : List String)
    (sample : List Nat)
    (_hlen : s.notes.length ≤ s.max_size)
    (hsorted : List.Sorted (· > ·) sample)
    (hbound : ∀ i ∈ sample, i < s.notes.length)
    (hcard : sample.length =
      (((min new_notes.length s.max_size : Nat) : Int) +
        (s.notes.length : Int) - (s.max_size : Int)).toNat) :
    List.Sublist (keptNotes s new_notes sample) s.notes ∧
    (s.add_notes new_notes sample).notes =
      keptNotes s new_notes sample ++ truncateBatch s.max_size new_notes ∧
    truncateBatch s.max_size new_notes =
      new_notes.drop (new_notes.length - s.max_size) ∧
    s.notes.length - (keptNotes s new_notes sample).length =
      (((min new_notes.length s.max_size : Nat) : Int) +
        (s.notes.length : Int) - (s.max_size : Int)).toNat ∧
    (s.add_notes new_notes sample).notes.length ≤ s.max_size ∧
    (s.add_notes new_notes sample).max_size = s.max_size := by
  have hnn : (truncateBatch s.max_size new_notes).length =
      min new_notes.length s.max_size := truncateBatch_length _ _
  have hnotes : (s.add_notes new_notes sample).notes =
      keptNotes s new_notes sample ++ truncateBatch s.max_size new_notes := rfl
  by_cases hov : ((truncateBatch s.max_size new_notes).length : Int) -
      ((s.max_size : Int) - (s.notes.length : Int)) > 0
  · have hkept : keptNotes s new_notes sample = deleteIndices s.notes sample := by
      rw [keptNotes, if_pos hov]
    obtain ⟨hsub, hklen⟩ :=
      deleteIndices_sublist_length sample s.notes hsorted hbound
    refine ⟨?_, hnotes, truncateBatch_eq_drop _ _, ?_, ?_, rfl⟩
    · rw [hkept]; exact hsub
    · rw [hkept, hklen]; omega
    · rw [hnotes, List.length_append, hkept, hklen]; omega
  · have hkept : keptNotes s new_notes sample = s.notes := by
      rw [keptNotes, if_neg hov]
    refine ⟨?_, hnotes, truncateBatch_eq_drop _ _, ?_, ?_, rfl⟩
    · rw [hkept]
    · rw [hkept]; omega
    · rw [hnotes, List.length_append, hkept]; omega

/-- Witness for `add_notes_spec`: `max_size = 3`, notes `a b c`, batch
`d e`, draw evicting positions 2 and 0. -/
theorem add_notes_spec_witness :
    List.Sublist
      (keptNotes ⟨3, ["a", "b", "c"]⟩ ["d", "e"] [2, 0]) ["a", "b", "c"] ∧
    ((AutoDecayingState.mk 3 ["a", "b", "c"]).add_notes ["d", "e"]
        [2, 0]).notes =
      keptNotes ⟨3, ["a", "b", "c"]⟩ ["d", "e"] [2, 0] ++
        truncateBatch 3 ["d", "e"] ∧
    truncateBatch 3 ["d", "e"] = List.drop (List.length ["d", "e"] - 3)
      ["d", "e"] ∧
    List.length ["a", "b", "c"] -
        (keptNotes ⟨3, ["a", "b", "c"]⟩ ["d", "e"] [2, 0]).length =
      (((min (List.length ["d", "e"]) 3 : Nat) : Int) +
        ((List.length ["a", "b", "c"] : Nat) : Int) - ((3 : Nat) : Int)).toNat ∧
    ((AutoDecayingState.mk 3 ["a", "b", "c"]).add_notes ["d", "e"]
        [2, 0]).notes.length ≤ 3 ∧
    ((AutoDecayingState.mk 3 ["a", "b", "c"]).add_notes ["d", "e"]
        [2, 0]).max_size = 3 :=
  add_notes_spec ⟨3, ["a", "b", "c"]⟩ ["d", "e"] [2, 0] (by decide)
    (by decide) (by decide) (by decide)

/-- Witness for the annealing theorem at the source defaults
(`temp_a_start = 1.6`, `temp_a_end = 0.2`, 10 anneal steps). -/
theorem anneal_schedule_spec_witness :
    _anneal_temp_a (8/5) (1/5) (some 10) 0 = 8/5 ∧
    _anneal_temp_a (8/5) (1/5) (some 10) 12 = 1/5 ∧
    _anneal_temp_a (8/5) (1/5) (some 10) 7 ≤
      _anneal_temp_a (8/5) (1/5) (some 10) 3 ∧
    (1/5 : ℚ) ≤ _anneal_temp_a (8/5) (1/5) (some 10) 4 :=
  have h := anneal_schedule_spec (8/5) (1/5) (some 10) (by norm_num)
    (by norm_num) (by decide)
  ⟨h.1, h.2.1 12 (by decide), h.2.2.1 3 7 (by decide), (h.2.2.2 4).1⟩

/-- Witness for the amended C6 theorem: a concrete run with
`response_format` requested. -/
theorem tool_loop_call_bound_witness :
    1 ≤ (_run_tool_loop 8 true true (fun _ => ⟨some "hi", []⟩) [] [] 0).2.length ∧
    (_run_tool_loop 8 true true (fun _ => ⟨some "hi", []⟩) [] [] 0).2.length ≤ 9 ∧
    noToolsLast (_run_tool_loop 8 true true (fun _ => ⟨some "hi", []⟩) [] [] 0).2
      = true :=
  ⟨(tool_loop_call_bound 8 true true (fun _ => ⟨some "hi", []⟩) [] [] 0).1,
   (tool_loop_call_bound 8 true true (fun _ => ⟨some "hi", []⟩) [] [] 0).2.1,
   (tool_loop_call_bound 8 true true (fun _ => ⟨some "hi", []⟩) [] [] 0).2.2
     (Or.inl rfl)⟩

end HyperThinkSpec
